import Mathlib

/-!
# Verification of the ChatGPT Navigator content script

Shallow embedding of the latest content-script variant (the one with the
per-conversation seen sets, normalized-text signatures and the toggleable
sidebar).  JavaScript strings are modelled as lists of UTF-16 code units
(`JsStr := List Nat`), so that `slice`, `startsWith`, `charCodeAt` and
`length` have their exact JavaScript meaning.  DOM elements are records
carrying the attributes the script reads and writes; DOM mutation is
explicit state passing.  `document.getElementById` look-ups of sidebar
entries are modelled as membership in the rendered entry list (ids with the
`cgpn-item-` prefix are only ever assigned to sidebar entries).
-/

/-- A JavaScript string: its sequence of UTF-16 code units. -/
abbrev JsStr := List Nat

/-- The code units matched by the JavaScript regular expression class `\s`
(and removed by `String.prototype.trim`): tab, LF, VT, FF, CR, space,
NBSP and the Unicode space separators, line/paragraph separators, BOM. -/
def isJsWhitespace (c : Nat) : Bool :=
  c == 9 || c == 10 || c == 11 || c == 12 || c == 13 || c == 32 ||
  c == 160 || c == 5760 || (8192 ≤ c && c ≤ 8202) || c == 8232 ||
  c == 8233 || c == 8239 || c == 8287 || c == 12288 || c == 65279

/-- `s.replace(/\s+/g, " ")`: each maximal run of whitespace becomes one
space.  The boolean records whether the previous code unit was part of a
whitespace run already replaced. -/
def collapseWsAux : Bool → JsStr → JsStr
  | _, [] => []
  | prevWs, c :: rest =>
    if isJsWhitespace c then
      if prevWs then collapseWsAux true rest
      else 32 :: collapseWsAux true rest
    else c :: collapseWsAux false rest

def collapseWs (s : JsStr) : JsStr := collapseWsAux false s

/-- `s.trim()`: strip leading and trailing whitespace. -/
def jsTrim (s : JsStr) : JsStr :=
  ((s.dropWhile isJsWhitespace).reverse.dropWhile isJsWhitespace).reverse

/-- `s.toLowerCase()`, restricted to the ASCII letters that occur in this
script's inputs: `A`–`Z` map to `a`–`z`, everything else is unchanged. -/
def jsToLower (c : Nat) : Nat := if 65 ≤ c && c ≤ 90 then c + 32 else c

/-- `normalizeText` from the script: collapse whitespace runs to a single
space, trim, lower-case.  (`if (!s) return ""` is the `[]` case of the
composite.) -/
def normalizeText (s : JsStr) : JsStr :=
  (jsTrim (collapseWs s)).map jsToLower

/-- One step of the djb2-like loop `h = (h * 33) ^ str.charCodeAt(i)`:
the multiplication is truncated to 32 bits by JavaScript's ToInt32 before
the XOR, and we track the 32-bit bit pattern of `h` as a natural number. -/
def hashStep (h c : Nat) : Nat := Nat.xor (h * 33 % 4294967296) c

/-- `strHashHex`: fold `hashStep` from 5381 over the code units, then
`(h >>> 0).toString(16)` (lowercase hex digits, as code units). -/
def strHashHex (s : JsStr) : JsStr :=
  ((Nat.toDigits 16 (s.foldl hashStep 5381)).map Char.toNat)

/-- The signature string `"s_" + strHashHex(norm)`; 115 = `s`, 95 = `_`. -/
def sigOf (norm : JsStr) : JsStr := 115 :: 95 :: strHashHex norm

/-- A DOM element as seen by the script: its `data-testid` attribute, its
`innerText`, its `data-nav-signature` attribute and its `id`.  `none`
models an absent (or empty, hence falsy) attribute.  The live element
reference retained by the script is the element itself in this model. -/
structure DomElem where
  dataTestid : Option JsStr
  innerText : JsStr
  navSig : Option JsStr
  domId : Option JsStr
  deriving Repr, DecidableEq

/-- The code units of `"user-message"`. -/
def userMessageLit : JsStr := [117, 115, 101, 114, 45, 109, 101, 115, 115, 97, 103, 101]

/-- `getAllUserMessageNodes`: `querySelectorAll('[data-testid="user-message"]')`,
i.e. the document-order elements whose `data-testid` is `user-message`. -/
def getAllUserMessageNodes (doc : List DomElem) : List DomElem :=
  doc.filter (fun e => e.dataTestid == some userMessageLit)

/-- The item record pushed by `getAllMessagesForCurrentConv` (the retained
`element` reference is the scanned node itself and is not duplicated in the
record). -/
structure MessageItem where
  signature : JsStr
  itemId : JsStr
  text : JsStr
  norm : JsStr
  rawText : JsStr
  deriving Repr, DecidableEq

/-- Code units of `"cgpn-"` and `"-"` used to build scroll-target ids. -/
def cgpnDashLit : JsStr := [99, 103, 112, 110, 45]

/-- The horizontal-ellipsis code unit appended by `raw.slice(0, 80) + "…"`. -/
def ellipsisCU : Nat := 8230

/-- The body of the `nodes.forEach` in `getAllMessagesForCurrentConv` for a
single node: trim the text, skip if empty; cap the normalized text at 400
code units; reuse the `data-nav-signature` attribute when present, else
hash and set it; assign an id when absent; build the item. -/
def scanNode (convKey : JsStr) (node : DomElem) : Option MessageItem × DomElem :=
  let raw := jsTrim node.innerText
  if raw = [] then (none, node)
  else
    let norm := (normalizeText raw).take 400
    let signature := match node.navSig with
      | some s => s
      | none => sigOf norm
    let node1 := match node.navSig with
      | some _ => node
      | none => { node with navSig := some signature }
    let idVal := match node1.domId with
      | some i => i
      | none => cgpnDashLit ++ convKey ++ [45] ++ signature
    let node2 := match node1.domId with
      | some _ => node1
      | none => { node1 with domId := some idVal }
    let text := if raw.length > 80 then raw.take 80 ++ [ellipsisCU] else raw
    (some { signature := signature, itemId := idVal, text := text,
            norm := norm, rawText := raw }, node2)

/-- `getAllMessagesForCurrentConv`, run against an explicit document:
select the user-message nodes, scan each in document order, and return the
collected items together with the updated document. -/
def scanDoc (convKey : JsStr) : List DomElem → List MessageItem × List DomElem
  | [] => ([], [])
  | e :: rest =>
    if e.dataTestid == some userMessageLit then
      let (it, e1) := scanNode convKey e
      let (its, rest1) := scanDoc convKey rest
      (match it with
       | some i => i :: its
       | none => its, e1 :: rest1)
    else
      let (its, rest1) := scanDoc convKey rest
      (its, e :: rest1)

/-- The duplicate test inside `uniqueOrdered`'s inner loop, in source
order: `s === key || s.startsWith(key) || key.startsWith(s)`. -/
def prefixMatch (s key : JsStr) : Bool :=
  s == key || List.isPrefixOf key s || List.isPrefixOf s key

/-- The key used for near-duplicate matching: `it.norm.slice(0, 200)`. -/
def normKey (it : MessageItem) : JsStr := it.norm.take 200

/-- The loop of `uniqueOrdered` with the `seenNorms` accumulator made
explicit (a JavaScript `Set` iterated only through `for … of` with an
existential test, so a list of the inserted keys is an exact model). -/
def uniqueOrderedAux (seen : List JsStr) : List MessageItem → List MessageItem
  | [] => []
  | it :: rest =>
    let key := normKey it
    if seen.any (fun s => prefixMatch s key) then
      uniqueOrderedAux seen rest
    else
      it :: uniqueOrderedAux (key :: seen) rest

/-- `uniqueOrdered`: drop an item when its 200-code-unit norm key equals,
is a prefix of, or extends the key of an already accepted item. -/
def uniqueOrdered (items : List MessageItem) : List MessageItem :=
  uniqueOrderedAux [] items

/-- The `convSeen` map: conversation key to the set of signatures already
surfaced, as an association list in insertion order (a JavaScript `Map`
whose keys are only ever added). -/
abbrev ConvReg := List (JsStr × List JsStr)

/-- `convSeen.get(key)`: the value of the first entry with this key (the
`Map` keeps keys unique, so "first" is exact). -/
def convLookup : ConvReg → JsStr → Option (List JsStr)
  | [], _ => none
  | kv :: rest, key => if kv.1 == key then some kv.2 else convLookup rest key

/-- The set of seen signatures for `key`, `[]` when the key is absent. -/
def seenSetOf (reg : ConvReg) (key : JsStr) : List JsStr :=
  (convLookup reg key).getD []

/-- `Set.prototype.add`: append the element unless already present. -/
def setAdd (s : List JsStr) (x : JsStr) : List JsStr :=
  if s.contains x then s else s ++ [x]

/-- `ensureConvSet(key)`'s effect on the registry: create an empty set for
`key` when absent. -/
def ensureConvSet (reg : ConvReg) (key : JsStr) : ConvReg :=
  if (convLookup reg key).isSome then reg else reg ++ [(key, [])]

/-- `seen.add(sig)` where `seen` is the (mutable) set stored for `key`. -/
def addSeen (reg : ConvReg) (key : JsStr) (x : JsStr) : ConvReg :=
  reg.map (fun kv => if kv.1 == key then (kv.1, setAdd kv.2 x) else kv)

/-- `const seen = ensureConvSet(key); sigs.forEach(s => seen.add(s))`. -/
def markSeenAll (reg : ConvReg) (key : JsStr) (sigs : List JsStr) : ConvReg :=
  sigs.foldl (fun r s => addSeen r key s) (ensureConvSet reg key)

/-- A rendered sidebar entry (`div.nav-item` with id `cgpn-item-` plus the
signature); the "No user messages found yet." placeholder is not an entry. -/
structure NavEntry where
  signature : JsStr
  text : JsStr
  targetId : JsStr
  deriving Repr, DecidableEq

/-- Code units of the `"Question"` fallback label. -/
def questionLit : JsStr := [81, 117, 101, 115, 116, 105, 111, 110]

/-- The entry built for item `q`: label `q.text || "Question"`, click
target `q.id`. -/
def mkEntry (q : MessageItem) : NavEntry :=
  { signature := q.signature,
    text := if q.text == [] then questionLit else q.text,
    targetId := q.itemId }

/-- The append loop of `updateSidebar`: an item is skipped when an entry
with id `cgpn-item-` + its signature is already in the list (the
`document.getElementById(itemDomId)` test; such ids are only given to
sidebar entries). -/
def appendEntries (cur : List NavEntry) : List MessageItem → List NavEntry
  | [] => cur
  | q :: rest =>
    if cur.any (fun e => e.signature == q.signature) then
      appendEntries cur rest
    else
      appendEntries (cur ++ [mkEntry q]) rest

/-- `updateSidebar(items, { append })`: clear the list first unless
appending, then run the per-item append loop. -/
def updateSidebarList (cur : List NavEntry) (items : List MessageItem)
    (append : Bool) : List NavEntry :=
  appendEntries (if append then cur else []) items

/-- The script's mutable state: the document's elements, the
per-conversation seen registry, the rendered sidebar entries and whether
the sidebar's `display` style is `"block"`. -/
structure NavState where
  doc : List DomElem
  convSeen : ConvReg
  rendered : List NavEntry
  displayBlock : Bool
  deriving Repr, DecidableEq

/-- `toggleSidebar(show)`: on `show`, full rebuild — scan, merge
near-duplicates, mark the merged signatures seen, render from a cleared
list, show the panel; otherwise hide the panel and clear the list. -/
def toggleSidebar (showFlag : Bool) (ck : JsStr) (st : NavState) : NavState :=
  if showFlag then
    let scanned := scanDoc ck st.doc
    let unique := uniqueOrdered scanned.1
    let reg1 := markSeenAll st.convSeen ck (unique.map (fun it => it.signature))
    { doc := scanned.2, convSeen := reg1,
      rendered := updateSidebarList st.rendered unique false,
      displayBlock := true }
  else
    { st with rendered := [], displayBlock := false }

/-- `appendNewMessagesForCurrentConv`: scan, keep the items whose
signature is not in the conversation's seen set, merge near-duplicates
among them, mark the merged ones seen, and append them to the list only
when the panel is displayed; returns the new state and the count. -/
def appendNewMessagesForCurrentConv (ck : JsStr) (st : NavState) :
    NavState × Nat :=
  let reg1 := ensureConvSet st.convSeen ck
  let seen := seenSetOf reg1 ck
  let scanned := scanDoc ck st.doc
  let newItems := scanned.1.filter (fun it => !(seen.contains it.signature))
  if newItems = [] then
    ({ st with doc := scanned.2, convSeen := reg1 }, 0)
  else
    let merged := uniqueOrdered newItems
    let reg2 := (merged.map (fun it => it.signature)).foldl
      (fun r s => addSeen r ck s) reg1
    let rendered1 :=
      if st.displayBlock then updateSidebarList st.rendered merged true
      else st.rendered
    ({ doc := scanned.2, convSeen := reg2, rendered := rendered1,
       displayBlock := st.displayBlock }, merged.length)

/-- `initialSilentMark`: scan and add every scanned signature to the
current conversation's seen set, touching no UI. -/
def initialSilentMark (ck : JsStr) (st : NavState) : NavState :=
  let scanned := scanDoc ck st.doc
  let reg1 := markSeenAll st.convSeen ck
    (scanned.1.map (fun it => it.signature))
  { st with doc := scanned.2, convSeen := reg1 }

/-- The conversation-change branch of the 800 ms poll: silently mark the
new conversation's current messages as seen, then clear the sidebar list
(the `display` style is untouched). -/
def handleConvChange (ck : JsStr) (st : NavState) : NavState :=
  let st1 := initialSilentMark ck st
  { st1 with rendered := [] }

/-- Outcome of the chat-root readiness poll. -/
inductive PollOutcome where
  | found (tick : Nat)
  | gaveUp
  deriving Repr, DecidableEq

/-- The readiness poll from tick `n` (0-based; `attempts = n + 1` inside
the callback): stop with `found` when the chat root exists at this tick,
give up once `attempts > 40`, else keep polling. -/
def pollFrom (rootAt : Nat → Bool) (n : Nat) : PollOutcome :=
  if rootAt n then .found n
  else if n + 1 > 40 then .gaveUp
  else pollFrom rootAt (n + 1)
termination_by 41 - n
decreasing_by simp_all; omega

/-- The whole poll, starting at the first tick. -/
def pollOutcome (rootAt : Nat → Bool) : PollOutcome := pollFrom rootAt 0

/-- What `setupObserverAndHandlers` installs. -/
inductive SetupResult where
  | installed (tick : Nat)
  | inert
  deriving Repr, DecidableEq

/-- `setupObserverAndHandlers`: the observer, the handlers and the UI are
wired only in the `found` branch; the exhausted branch only logs a
warning. -/
def setupResult (rootAt : Nat → Bool) : SetupResult :=
  match pollOutcome rootAt with
  | .found k => .installed k
  | .gaveUp => .inert

/-- The readiness-poll period in milliseconds. -/
def pollIntervalMs : Nat := 250

/-- The conversation-change poll period in milliseconds. -/
def convPollMs : Nat := 800

/-- The page node with raw text `"Hello world"`. -/
def c2NodeA : DomElem :=
  { dataTestid := some userMessageLit,
    innerText := [72, 101, 108, 108, 111, 32, 119, 111, 114, 108, 100],
    navSig := none, domId := none }

/-- The page node with raw text `"hello   world "` (extra whitespace). -/
def c2NodeB : DomElem :=
  { dataTestid := some userMessageLit,
    innerText := [104, 101, 108, 108, 111, 32, 32, 32, 119, 111, 114, 108, 100, 32],
    navSig := none, domId := none }

/-- Code units of `"hello world"`, the common normalized form. -/
def helloWorldLit : JsStr := [104, 101, 108, 108, 111, 32, 119, 111, 114, 108, 100]

/-- A trivial item used to instantiate the batch lemma. -/
def c2WitnessItem : MessageItem :=
  { signature := [], itemId := [], text := [], norm := [], rawText := [] }

/-- First item of the C10 witness: normalized text `aa…a` (200 times)
followed by `b`. -/
def c10I1 : MessageItem :=
  { signature := [], itemId := [], text := [],
    norm := List.replicate 200 97 ++ [98], rawText := [] }

/-- Second item of the C10 witness: normalized text `aa…a` (200 times)
followed by `cd`; it diverges from `c10I1` after code unit 200 and
neither norm is a prefix of the other. -/
def c10I2 : MessageItem :=
  { signature := [], itemId := [], text := [],
    norm := List.replicate 200 97 ++ [99, 100], rawText := [] }

/-- A fresh user-message node with raw text `"hi"`. -/
def c10Node : DomElem :=
  { dataTestid := some userMessageLit, innerText := [104, 105],
    navSig := none, domId := none }

/-- The item the scanner produces for `c10Node`. -/
def c10It : MessageItem :=
  ((scanNode [] c10Node).1).getD
    { signature := [], itemId := [], text := [], norm := [], rawText := [] }

/-- The node state after scanning `c10Node`. -/
def c10Nd : DomElem := (scanNode [] c10Node).2

/-- A one-element document holding the node while its text is still
streaming in: only `"h"` has rendered so far. -/
def c1StreamDoc : List DomElem :=
  [{ dataTestid := some userMessageLit, innerText := [104],
     navSig := none, domId := none }]

/-- The same node after the page re-rendered its full text `"hello"`:
the scan of the streaming state attached `data-nav-signature` (and an id)
derived from `"h"`, and those attributes survive the re-render. -/
def c1NodeStale : DomElem :=
  { (scanDoc [] c1StreamDoc).2.getD 0
      { dataTestid := none, innerText := [], navSig := none, domId := none }
    with innerText := [104, 101, 108, 108, 111] }

/-- A second node that rendered `"hello"` in one go, never scanned. -/
def c1NodeFresh : DomElem :=
  { dataTestid := some userMessageLit, innerText := [104, 101, 108, 108, 111],
    navSig := none, domId := none }

/-- A fresh node with raw text `"Hi"`. -/
def c1W1 : DomElem :=
  { dataTestid := some userMessageLit, innerText := [72, 105],
    navSig := none, domId := none }

/-- A fresh node with raw text `"hi "` (case and whitespace differ). -/
def c1W2 : DomElem :=
  { dataTestid := some userMessageLit, innerText := [104, 105, 32],
    navSig := none, domId := none }

/-- The item scanned from `c1W1`. -/
def c1W1It : MessageItem :=
  ((scanNode [] c1W1).1).getD
    { signature := [], itemId := [], text := [], norm := [], rawText := [] }

/-- The item scanned from `c1W2`. -/
def c1W2It : MessageItem :=
  ((scanNode [] c1W2).1).getD
    { signature := [], itemId := [], text := [], norm := [], rawText := [] }

/-- Every entry of the registry keyed `k` already holds signature `x`. -/
def SatReg (reg : ConvReg) (k x : JsStr) : Prop :=
  ∀ kv ∈ reg, kv.1 = k → x ∈ kv.2

/-- The close-then-open toggle pair. -/
def ocCycle (ck : JsStr) (st : NavState) : NavState :=
  toggleSidebar true ck (toggleSidebar false ck st)

/-- `n` repetitions of close-then-open. -/
def ocIter (ck : JsStr) : Nat → NavState → NavState
  | 0, st => st
  | n + 1, st => ocIter ck n (ocCycle ck st)

/-- The page node with raw text `"hello"` for the C4 counterexample. -/
def c4NodeA : DomElem :=
  { dataTestid := some userMessageLit,
    innerText := [104, 101, 108, 108, 111], navSig := none, domId := none }

/-- The page node with raw text `"hello world"`: a distinct message whose
normalized text extends `"hello"`. -/
def c4NodeB : DomElem :=
  { dataTestid := some userMessageLit,
    innerText := [104, 101, 108, 108, 111, 32, 119, 111, 114, 108, 100],
    navSig := none, domId := none }

/-- The initial state for the C4 counterexample. -/
def c4St0 : NavState :=
  { doc := [c4NodeA, c4NodeB], convSeen := [], rendered := [],
    displayBlock := false }

/-- A state whose conversation `"b"` was visited earlier and has the
signature `"x"` in its seen set. -/
def c5St : NavState :=
  { doc := [], convSeen := [([98], [[120]])], rendered := [],
    displayBlock := false }

/-- A concrete document: a matching node with text `"ok"`, a matching
node with whitespace-only text, and a non-matching node. -/
def c7WitnessDoc : List DomElem :=
  [{ dataTestid := some userMessageLit, innerText := [111, 107],
     navSig := none, domId := none },
   { dataTestid := some userMessageLit, innerText := [32, 9, 32],
     navSig := none, domId := none },
   { dataTestid := none, innerText := [120], navSig := none, domId := none }]

/-- A state whose conversation `"a"` already holds signature `"k"`. -/
def c9WitnessSt : NavState :=
  { doc := [], convSeen := [([97], [[107]])], rendered := [],
    displayBlock := false }

/-! ## Properties of the near-duplicate merge -/

theorem prefixMatch_iff (s k : JsStr) :
    prefixMatch s k = true ↔ (s = k ∨ k <+: s ∨ s <+: k) := by
  simp [prefixMatch, List.isPrefixOf_iff_prefix, or_assoc]

theorem prefixMatch_self (k : JsStr) : prefixMatch k k = true := by
  simp [prefixMatch_iff]

theorem prefixMatch_comm (s k : JsStr) :
    prefixMatch s k = true ↔ prefixMatch k s = true := by
  simp only [prefixMatch_iff]
  constructor <;> (rintro (h | h | h) <;> simp [h])

theorem prefixMatch_of_eq {s k : JsStr} (h : s = k) : prefixMatch s k = true := by
  subst h; exact prefixMatch_self s

theorem uniqueOrderedAux_sublist (items : List MessageItem) :
    ∀ seen, (uniqueOrderedAux seen items).Sublist items := by
  induction items with
  | nil => intro seen; simp [uniqueOrderedAux]
  | cons it rest ih =>
    intro seen
    simp only [uniqueOrderedAux]
    split
    · exact (ih seen).cons it
    · exact (ih (normKey it :: seen)).cons₂ it

theorem uniqueOrderedAux_avoid (items : List MessageItem) :
    ∀ seen, ∀ b ∈ uniqueOrderedAux seen items, ∀ s ∈ seen,
      ¬ prefixMatch s (normKey b) = true := by
  induction items with
  | nil => intro seen b hb; simp [uniqueOrderedAux] at hb
  | cons it rest ih =>
    intro seen b hb s hs
    simp only [uniqueOrderedAux] at hb
    split at hb
    · exact ih seen b hb s hs
    · rcases List.mem_cons.mp hb with hb | hb
      · subst hb
        rename_i hnot
        intro hmatch
        exact hnot (List.any_eq_true.mpr ⟨s, hs, hmatch⟩)
      · exact ih (normKey it :: seen) b hb s (List.mem_cons_of_mem _ hs)

theorem uniqueOrderedAux_pairwise (items : List MessageItem) :
    ∀ seen, (uniqueOrderedAux seen items).Pairwise
      (fun a b => ¬ prefixMatch (normKey a) (normKey b) = true) := by
  induction items with
  | nil => intro seen; simp [uniqueOrderedAux]
  | cons it rest ih =>
    intro seen
    simp only [uniqueOrderedAux]
    split
    · exact ih seen
    · refine List.Pairwise.cons ?_ (ih (normKey it :: seen))
      intro b hb
      exact uniqueOrderedAux_avoid rest (normKey it :: seen) b hb
        (normKey it) (List.mem_cons_self _ _)

theorem uniqueOrderedAux_complete (items : List MessageItem) :
    ∀ seen, ∀ it ∈ items,
      (∃ r ∈ uniqueOrderedAux seen items,
        prefixMatch (normKey it) (normKey r) = true) ∨
      (∃ s ∈ seen, prefixMatch (normKey it) s = true) := by
  induction items with
  | nil => intro seen it hit; simp at hit
  | cons a rest ih =>
    intro seen it hit
    rcases List.mem_cons.mp hit with rfl | hit
    · simp only [uniqueOrderedAux]
      split
      · rename_i hdup
        rcases List.any_eq_true.mp hdup with ⟨s, hs, hps⟩
        exact Or.inr ⟨s, hs, (prefixMatch_comm s (normKey it)).mp hps⟩
      · exact Or.inl ⟨it, List.mem_cons_self _ _, prefixMatch_self _⟩
    · simp only [uniqueOrderedAux]
      split
      · exact ih seen it hit
      · rcases ih (normKey a :: seen) it hit with ⟨r, hr, hp⟩ | ⟨s, hs, hp⟩
        · exact Or.inl ⟨r, List.mem_cons_of_mem _ hr, hp⟩
        · rcases List.mem_cons.mp hs with rfl | hs
          · exact Or.inl ⟨a, List.mem_cons_self _ _, hp⟩
          · exact Or.inr ⟨s, hs, hp⟩

/-- C2: within one scan batch, an item whose normalized-text prefix
equals, is a prefix of, or has as a prefix the prefix of an earlier
accepted item is dropped; the accepted items are a subsequence of the
input in first-seen order; and a page with the nodes `"Hello world"` and
`"hello   world "` yields exactly one entry, with signature derived from
`"hello world"`. -/
theorem c2_near_duplicate_merge (items : List MessageItem) (it : MessageItem)
    (h : it ∈ items) :
    (uniqueOrdered items).Sublist items ∧
    (uniqueOrdered items).Pairwise
      (fun a b => ¬ prefixMatch (normKey a) (normKey b) = true) ∧
    (∃ r ∈ uniqueOrdered items, prefixMatch (normKey it) (normKey r) = true) ∧
    (uniqueOrdered (scanDoc [107] [c2NodeA, c2NodeB]).1).map
      MessageItem.signature = [sigOf helloWorldLit] := by
  refine ⟨uniqueOrderedAux_sublist items [],
    uniqueOrderedAux_pairwise items [], ?_, by decide⟩
  rcases uniqueOrderedAux_complete items [] it h with h1 | ⟨s, hs, _⟩
  · exact h1
  · simp at hs

/-- Witness for C2 at a concrete one-item batch. -/
theorem c2_witness :
    (uniqueOrdered [c2WitnessItem]).Sublist [c2WitnessItem] ∧
    (uniqueOrdered [c2WitnessItem]).Pairwise
      (fun a b => ¬ prefixMatch (normKey a) (normKey b) = true) ∧
    (∃ r ∈ uniqueOrdered [c2WitnessItem],
      prefixMatch (normKey c2WitnessItem) (normKey r) = true) ∧
    (uniqueOrdered (scanDoc [107] [c2NodeA, c2NodeB]).1).map
      MessageItem.signature = [sigOf helloWorldLit] :=
  c2_near_duplicate_merge [c2WitnessItem] c2WitnessItem (by simp)

/-- What `scanNode` produces for a node with no previously attached
signature: the signature is the hash of the first 400 code units of the
normalized trimmed text. -/
theorem scanNode_fresh_fields (ck : JsStr) (node : DomElem)
    (it : MessageItem) (nd : DomElem)
    (hfresh : node.navSig = none) (hscan : scanNode ck node = (some it, nd)) :
    it.signature = sigOf ((normalizeText (jsTrim node.innerText)).take 400) ∧
    it.norm = (normalizeText (jsTrim node.innerText)).take 400 ∧
    it.rawText = jsTrim node.innerText := by
  by_cases hr : jsTrim node.innerText = []
  · simp [scanNode, hr] at hscan
  · have h1 := congrArg Prod.fst hscan
    simp only [scanNode, hfresh] at h1
    rw [if_neg hr] at h1
    have h2 := Option.some.inj h1
    refine ⟨?_, ?_, ?_⟩ <;> rw [← h2]

/-- C10: the near-duplicate merge compares only the first 200 code units
of normalized text (so agreement there drops the later item even when the
full texts diverge), while a freshly computed signature hashes the first
400 code units of the normalized text. -/
theorem c10_merge_window_vs_hash_window (i1 i2 : MessageItem) (ck : JsStr)
    (node : DomElem) (it : MessageItem) (nd : DomElem)
    (hagree : i1.norm.take 200 = i2.norm.take 200)
    (hfresh : node.navSig = none)
    (hscan : scanNode ck node = (some it, nd)) :
    uniqueOrdered [i1, i2] = [i1] ∧
    (∀ items, (uniqueOrdered items).Pairwise
      (fun a b => ¬ a.norm.take 200 = b.norm.take 200)) ∧
    it.norm = (normalizeText (jsTrim node.innerText)).take 400 ∧
    it.signature = sigOf ((normalizeText (jsTrim node.innerText)).take 400) := by
  have hk : normKey i1 = normKey i2 := hagree
  refine ⟨?_, ?_, ?_⟩
  · simp [uniqueOrdered, uniqueOrderedAux, normKey] at hk ⊢
    simp [hk, prefixMatch_self]
  · intro items
    exact (uniqueOrderedAux_pairwise items []).imp
      (fun {a b} hnp hab => hnp (prefixMatch_of_eq (by simp [normKey, hab])))
  · have h := scanNode_fresh_fields ck node it nd hfresh hscan
    exact ⟨h.2.1, h.1⟩

set_option maxRecDepth 4000 in
/-- Witness for C10: the two divergent 200-plus-code-unit items, neither
of whose norms is a prefix of the other, and the concrete scan of a fresh
node. -/
theorem c10_witness :
    (uniqueOrdered [c10I1, c10I2] = [c10I1] ∧
    (∀ items, (uniqueOrdered items).Pairwise
      (fun a b => ¬ a.norm.take 200 = b.norm.take 200)) ∧
    c10It.norm = (normalizeText (jsTrim c10Node.innerText)).take 400 ∧
    c10It.signature =
      sigOf ((normalizeText (jsTrim c10Node.innerText)).take 400)) ∧
    List.isPrefixOf c10I1.norm c10I2.norm = false ∧
    List.isPrefixOf c10I2.norm c10I1.norm = false :=
  ⟨c10_merge_window_vs_hash_window c10I1 c10I2 [] c10Node c10It c10Nd
      (by decide) (by decide) (by decide),
    by decide, by decide⟩

/-! ## Signature determinism (C1) -/

/-- Counterexample to C1: two scanned message elements with the same raw
text `"hello"` — hence the same normalized form — get different
signatures, because one carries the stale signature attached while its
text was still streaming (hash of `"h"`), and `getAllMessagesForCurrentConv`
reuses an attached signature instead of rehashing. -/
theorem c1_counterexample :
    ((scanDoc [] [c1NodeFresh, c1NodeStale]).1.map
      (fun it => normalizeText it.rawText)) =
      [[104, 101, 108, 108, 111], [104, 101, 108, 108, 111]] ∧
    ((scanDoc [] [c1NodeFresh, c1NodeStale]).1.map MessageItem.signature) =
      [sigOf [104, 101, 108, 108, 111], sigOf [104]] ∧
    sigOf [104, 101, 108, 108, 111] ≠ sigOf [104] := by decide

/-- C1 as amended: for scanned message elements that carry no previously
attached `data-nav-signature`, equal normalized raw texts always yield
the same signature. -/
theorem c1_signature_deterministic_fresh (ck1 ck2 : JsStr)
    (n1 n2 : DomElem) (it1 it2 : MessageItem) (d1 d2 : DomElem)
    (h1 : n1.navSig = none) (h2 : n2.navSig = none)
    (hs1 : scanNode ck1 n1 = (some it1, d1))
    (hs2 : scanNode ck2 n2 = (some it2, d2))
    (heq : normalizeText (jsTrim n1.innerText) =
           normalizeText (jsTrim n2.innerText)) :
    it1.signature = it2.signature := by
  rw [(scanNode_fresh_fields ck1 n1 it1 d1 h1 hs1).1,
    (scanNode_fresh_fields ck2 n2 it2 d2 h2 hs2).1, heq]

/-- Witness for the amended C1: `"Hi"` and `"hi "` normalize alike and
get the same signature. -/
theorem c1_witness : c1W1It.signature = c1W2It.signature :=
  c1_signature_deterministic_fresh [] [] c1W1 c1W2 c1W1It c1W2It
    (scanNode [] c1W1).2 (scanNode [] c1W2).2
    (by decide) (by decide) (by decide) (by decide) (by decide)

/-! ## Properties of the per-conversation seen registry -/

theorem setAdd_mem (s : List JsStr) (x : JsStr) : x ∈ setAdd s x := by
  unfold setAdd
  split
  · rename_i h; simpa using h
  · simp

theorem setAdd_mono {s : List JsStr} {y : JsStr} (x : JsStr) (h : y ∈ s) :
    y ∈ setAdd s x := by
  unfold setAdd
  split
  · exact h
  · simp [h]

theorem setAdd_of_mem {s : List JsStr} {x : JsStr} (h : x ∈ s) :
    setAdd s x = s := by
  unfold setAdd
  rw [if_pos (by simpa using h)]

theorem mem_setAdd_iff {s : List JsStr} {x y : JsStr} :
    y ∈ setAdd s x ↔ y ∈ s ∨ y = x := by
  unfold setAdd
  split
  · rename_i h
    simp only [iff_self_or]
    rintro rfl
    simpa using h
  · simp

theorem convLookup_append (l1 l2 : ConvReg) (k : JsStr) :
    convLookup (l1 ++ l2) k = match convLookup l1 k with
      | some v => some v
      | none => convLookup l2 k := by
  induction l1 with
  | nil => simp [convLookup]
  | cons kv rest ih =>
    simp only [List.cons_append, convLookup]
    split <;> simp [ih]

theorem convLookup_addSeen (reg : ConvReg) (k x key : JsStr) :
    convLookup (addSeen reg k x) key =
      (convLookup reg key).map (fun v => if key = k then setAdd v x else v) := by
  induction reg with
  | nil => simp [addSeen, convLookup]
  | cons kv rest ih =>
    simp only [addSeen] at ih ⊢
    by_cases hk : kv.1 = k <;> by_cases hkey : kv.1 = key <;>
      simp [convLookup, hk, hkey, ih] <;> simp_all

theorem seenSetOf_addSeen_other {reg : ConvReg} {k key : JsStr} (x : JsStr)
    (h : key ≠ k) : seenSetOf (addSeen reg k x) key = seenSetOf reg key := by
  simp only [seenSetOf, convLookup_addSeen, if_neg h]
  cases convLookup reg key <;> simp

theorem convLookup_addSeen_isSome (reg : ConvReg) (k x key : JsStr) :
    (convLookup (addSeen reg k x) key).isSome = (convLookup reg key).isSome := by
  rw [convLookup_addSeen]
  cases convLookup reg key <;> simp

theorem seenSetOf_addSeen_self {reg : ConvReg} {k : JsStr} (x : JsStr)
    (h : (convLookup reg k).isSome) :
    seenSetOf (addSeen reg k x) k = setAdd (seenSetOf reg k) x := by
  simp only [seenSetOf, convLookup_addSeen, if_pos rfl]
  cases hc : convLookup reg k
  · rw [hc] at h; simp at h
  · simp

theorem seenSetOf_addSeen_mono {reg : ConvReg} {k x key s : JsStr}
    (h : s ∈ seenSetOf reg key) : s ∈ seenSetOf (addSeen reg k x) key := by
  simp only [seenSetOf, convLookup_addSeen] at h ⊢
  cases hc : convLookup reg key
  · rw [hc] at h; simp at h
  · rw [hc] at h
    simp only [Option.map_some, Option.getD_some] at h ⊢
    split
    · exact setAdd_mono x h
    · exact h

theorem seenSetOf_ensure (reg : ConvReg) (k key : JsStr) :
    seenSetOf (ensureConvSet reg k) key = seenSetOf reg key := by
  unfold ensureConvSet
  split
  · rfl
  · simp only [seenSetOf, convLookup_append]
    cases hc : convLookup reg key
    · simp [convLookup]
      split <;> simp
    · simp

theorem convLookup_ensure_self_isSome (reg : ConvReg) (k : JsStr) :
    (convLookup (ensureConvSet reg k) k).isSome := by
  unfold ensureConvSet
  split
  · assumption
  · rename_i h
    rw [convLookup_append]
    cases hc : convLookup reg k
    · simp [convLookup]
    · simp

theorem convLookup_foldl_addSeen_isSome (sigs : List JsStr) (k key : JsStr) :
    ∀ reg : ConvReg,
      (convLookup (sigs.foldl (fun r s => addSeen r k s) reg) key).isSome =
      (convLookup reg key).isSome := by
  induction sigs with
  | nil => intro reg; rfl
  | cons x rest ih =>
    intro reg
    simp only [List.foldl_cons]
    rw [ih, convLookup_addSeen_isSome]

theorem seenSetOf_foldl_addSeen (sigs : List JsStr) (k : JsStr) :
    ∀ reg : ConvReg, (convLookup reg k).isSome →
      seenSetOf (sigs.foldl (fun r s => addSeen r k s) reg) k =
      sigs.foldl setAdd (seenSetOf reg k) := by
  induction sigs with
  | nil => intro reg _; rfl
  | cons x rest ih =>
    intro reg h
    simp only [List.foldl_cons]
    rw [ih (addSeen reg k x) (by rw [convLookup_addSeen_isSome]; exact h),
      seenSetOf_addSeen_self x h]

theorem seenSetOf_foldl_addSeen_other (sigs : List JsStr) {k key : JsStr}
    (hne : key ≠ k) :
    ∀ reg : ConvReg,
      seenSetOf (sigs.foldl (fun r s => addSeen r k s) reg) key =
      seenSetOf reg key := by
  induction sigs with
  | nil => intro reg; rfl
  | cons x rest ih =>
    intro reg
    simp only [List.foldl_cons]
    rw [ih (addSeen reg k x), seenSetOf_addSeen_other x hne]

theorem seenSetOf_foldl_addSeen_mono (sigs : List JsStr) {k key s : JsStr} :
    ∀ reg : ConvReg, s ∈ seenSetOf reg key →
      s ∈ seenSetOf (sigs.foldl (fun r s => addSeen r k s) reg) key := by
  induction sigs with
  | nil => intro reg h; exact h
  | cons x rest ih =>
    intro reg h
    simp only [List.foldl_cons]
    exact ih (addSeen reg k x) (seenSetOf_addSeen_mono h)

theorem mem_foldl_setAdd (sigs : List JsStr) :
    ∀ (init : List JsStr) (s : JsStr),
      s ∈ sigs.foldl setAdd init ↔ s ∈ init ∨ s ∈ sigs := by
  induction sigs with
  | nil => intro init s; simp
  | cons x rest ih =>
    intro init s
    simp only [List.foldl_cons]
    rw [ih (setAdd init x) s, mem_setAdd_iff]
    simp only [List.mem_cons]
    tauto

theorem seenSetOf_markSeenAll_self (reg : ConvReg) (k : JsStr)
    (sigs : List JsStr) (s : JsStr) :
    s ∈ seenSetOf (markSeenAll reg k sigs) k ↔
      s ∈ seenSetOf reg k ∨ s ∈ sigs := by
  unfold markSeenAll
  rw [seenSetOf_foldl_addSeen sigs k _ (convLookup_ensure_self_isSome reg k),
    seenSetOf_ensure, mem_foldl_setAdd]

theorem seenSetOf_markSeenAll_other (reg : ConvReg) {k key : JsStr}
    (sigs : List JsStr) (hne : key ≠ k) :
    seenSetOf (markSeenAll reg k sigs) key = seenSetOf reg key := by
  unfold markSeenAll
  rw [seenSetOf_foldl_addSeen_other sigs hne, seenSetOf_ensure]

theorem seenSetOf_markSeenAll_mono {reg : ConvReg} {k key s : JsStr}
    (sigs : List JsStr) (h : s ∈ seenSetOf reg key) :
    s ∈ seenSetOf (markSeenAll reg k sigs) key := by
  unfold markSeenAll
  exact seenSetOf_foldl_addSeen_mono sigs _ (by rwa [seenSetOf_ensure])

theorem map_id_on {α : Type} (l : List α) (f : α → α)
    (h : ∀ a ∈ l, f a = a) : l.map f = l := by
  induction l with
  | nil => rfl
  | cons a rest ih =>
    simp only [List.map_cons, h a (by simp)]
    rw [ih (fun b hb => h b (by simp [hb]))]

theorem addSeen_eq_of_sat {reg : ConvReg} {k x : JsStr}
    (h : SatReg reg k x) : addSeen reg k x = reg := by
  unfold addSeen
  apply map_id_on
  intro kv hkv
  by_cases hk : kv.1 = k
  · simp only [hk, beq_self_eq_true, if_pos, setAdd_of_mem (h kv hkv hk)]
    rw [← hk]
  · simp [hk]

theorem satReg_addSeen_self (reg : ConvReg) (k x : JsStr) :
    SatReg (addSeen reg k x) k x := by
  intro kv hkv hk
  unfold addSeen at hkv
  rcases List.mem_map.mp hkv with ⟨kv0, hkv0, heq⟩
  by_cases h0 : kv0.1 = k
  · rw [← heq]
    simp only [h0, beq_self_eq_true, if_pos]
    exact setAdd_mem _ _
  · rw [← heq] at hk
    simp [h0] at hk

theorem satReg_addSeen_mono {reg : ConvReg} {k x : JsStr} (y : JsStr)
    (h : SatReg reg k x) : SatReg (addSeen reg k y) k x := by
  intro kv hkv hk
  unfold addSeen at hkv
  rcases List.mem_map.mp hkv with ⟨kv0, hkv0, heq⟩
  by_cases h0 : kv0.1 = k
  · rw [← heq]
    simp only [h0, beq_self_eq_true, if_pos]
    exact setAdd_mono y (h kv0 hkv0 h0)
  · rw [← heq] at hk
    simp [h0] at hk

theorem satReg_foldl (sigs : List JsStr) (k : JsStr) :
    ∀ (reg : ConvReg) (x : JsStr), SatReg reg k x →
      SatReg (sigs.foldl (fun r s => addSeen r k s) reg) k x := by
  induction sigs with
  | nil => intro reg x h; exact h
  | cons y rest ih =>
    intro reg x h
    simp only [List.foldl_cons]
    exact ih (addSeen reg k y) x (satReg_addSeen_mono y h)

theorem satReg_foldl_self (sigs : List JsStr) (k : JsStr) :
    ∀ reg : ConvReg, ∀ x ∈ sigs,
      SatReg (sigs.foldl (fun r s => addSeen r k s) reg) k x := by
  induction sigs with
  | nil => intro reg x hx; simp at hx
  | cons y rest ih =>
    intro reg x hx
    simp only [List.foldl_cons]
    rcases List.mem_cons.mp hx with rfl | hx
    · exact satReg_foldl rest k (addSeen reg k x) x (satReg_addSeen_self reg k x)
    · exact ih (addSeen reg k y) x hx

theorem foldl_addSeen_id_of_sat (sigs : List JsStr) (k : JsStr) :
    ∀ reg : ConvReg, (∀ x ∈ sigs, SatReg reg k x) →
      sigs.foldl (fun r s => addSeen r k s) reg = reg := by
  induction sigs with
  | nil => intro reg _; rfl
  | cons y rest ih =>
    intro reg h
    simp only [List.foldl_cons]
    rw [addSeen_eq_of_sat (h y (by simp))]
    exact ih reg (fun x hx => h x (by simp [hx]))

theorem ensure_of_isSome {reg : ConvReg} {k : JsStr}
    (h : (convLookup reg k).isSome) : ensureConvSet reg k = reg := by
  unfold ensureConvSet
  rw [if_pos h]

theorem convLookup_markSeenAll_isSome (reg : ConvReg) (k : JsStr)
    (sigs : List JsStr) : (convLookup (markSeenAll reg k sigs) k).isSome := by
  unfold markSeenAll
  rw [convLookup_foldl_addSeen_isSome]
  exact convLookup_ensure_self_isSome reg k

theorem markSeenAll_sat (reg : ConvReg) (k : JsStr) (sigs : List JsStr) :
    ∀ x ∈ sigs, SatReg (markSeenAll reg k sigs) k x := by
  intro x hx
  unfold markSeenAll
  exact satReg_foldl_self sigs k (ensureConvSet reg k) x hx

theorem markSeenAll_idem (reg : ConvReg) (k : JsStr) (sigs : List JsStr) :
    markSeenAll (markSeenAll reg k sigs) k sigs = markSeenAll reg k sigs := by
  show sigs.foldl (fun r s => addSeen r k s)
    (ensureConvSet (markSeenAll reg k sigs) k) = markSeenAll reg k sigs
  rw [ensure_of_isSome (convLookup_markSeenAll_isSome reg k sigs)]
  exact foldl_addSeen_id_of_sat sigs k _ (markSeenAll_sat reg k sigs)

/-! ## Scan stability under re-scanning -/

theorem scanNode_testid (ck : JsStr) (node : DomElem) :
    (scanNode ck node).2.dataTestid = node.dataTestid := by
  rcases node with ⟨td, txt, sg, di⟩
  by_cases hr : jsTrim txt = []
  · simp [scanNode, hr]
  · cases sg <;> cases di <;> simp [scanNode, hr]

theorem scanNode_stable (ck : JsStr) (node : DomElem)
    (it : Option MessageItem) (nd : DomElem)
    (h : scanNode ck node = (it, nd)) : scanNode ck nd = (it, nd) := by
  rcases node with ⟨td, txt, sg, di⟩
  by_cases hr : jsTrim txt = []
  · rw [scanNode] at h
    rw [if_pos hr] at h
    injection h with h1 h2
    subst h1
    subst h2
    rw [scanNode]
    rw [if_pos hr]
  · cases sg <;> cases di <;>
      (simp only [scanNode, hr] at h;
        injection h with h1 h2; subst h1; subst h2; simp [scanNode, hr])

theorem scanDoc_stable (ck : JsStr) :
    ∀ doc : List DomElem, scanDoc ck (scanDoc ck doc).2 = scanDoc ck doc := by
  intro doc
  induction doc with
  | nil => rfl
  | cons e rest ih =>
    by_cases he : (e.dataTestid == some userMessageLit) = true
    · rcases hp : scanNode ck e with ⟨it, e1⟩
      have he1 : (e1.dataTestid == some userMessageLit) = true := by
        have ht := scanNode_testid ck e
        rw [hp] at ht
        rw [show e1.dataTestid = e.dataTestid from ht]
        exact he
      have hs := scanNode_stable ck e it e1 hp
      simp only [scanDoc, he, hp, if_pos]
      simp only [scanDoc, he1, hs, ih, if_pos]
    · simp only [scanDoc, if_neg he, ih]

/-! ## Properties of the sidebar rendering -/

theorem appendEntries_sig_nodup (items : List MessageItem) :
    ∀ cur : List NavEntry, (cur.map NavEntry.signature).Nodup →
      ((appendEntries cur items).map NavEntry.signature).Nodup := by
  induction items with
  | nil => intro cur h; exact h
  | cons q rest ih =>
    intro cur h
    simp only [appendEntries]
    split
    · exact ih cur h
    · rename_i hq
      apply ih
      rw [List.map_append, List.nodup_append]
      refine ⟨h, by simp, ?_⟩
      intro a ha hb
      simp only [List.map_cons, List.map_nil, List.mem_singleton] at hb
      rcases List.mem_map.mp ha with ⟨e, he, rfl⟩
      exact hq (List.any_eq_true.mpr ⟨e, he, by simp [hb, mkEntry]⟩)

theorem toggleSidebar_true_eq (ck : JsStr) (st : NavState) :
    toggleSidebar true ck st =
      { doc := (scanDoc ck st.doc).2,
        convSeen := markSeenAll st.convSeen ck
          ((uniqueOrdered (scanDoc ck st.doc).1).map (fun it => it.signature)),
        rendered := appendEntries [] (uniqueOrdered (scanDoc ck st.doc).1),
        displayBlock := true } := by
  simp [toggleSidebar, updateSidebarList]

theorem toggle_open_rendered_pairwise (ck : JsStr) (st : NavState) :
    ((toggleSidebar true ck st).rendered).Pairwise
      (fun a b => a.signature ≠ b.signature) := by
  have h := appendEntries_sig_nodup (uniqueOrdered (scanDoc ck st.doc).1)
    [] (by simp)
  rw [toggleSidebar_true_eq]
  simp only [List.Nodup, List.pairwise_map] at h
  exact h

theorem ocCycle_eq (ck : JsStr) (st : NavState) :
    ocCycle ck st =
      { doc := (scanDoc ck st.doc).2,
        convSeen := markSeenAll st.convSeen ck
          ((uniqueOrdered (scanDoc ck st.doc).1).map (fun it => it.signature)),
        rendered := appendEntries [] (uniqueOrdered (scanDoc ck st.doc).1),
        displayBlock := true } := by
  show toggleSidebar true ck (toggleSidebar false ck st) = _
  rw [toggleSidebar_true_eq]
  rfl

theorem ocCycle_idem (ck : JsStr) (st : NavState) :
    ocCycle ck (ocCycle ck st) = ocCycle ck st := by
  conv_lhs => rw [ocCycle_eq ck (ocCycle ck st)]
  rw [ocCycle_eq ck st]
  simp only [scanDoc_stable, markSeenAll_idem]

theorem ocIter_of_fix (ck : JsStr) :
    ∀ (n : Nat) (x : NavState), ocCycle ck x = x → ocIter ck n x = x := by
  intro n
  induction n with
  | zero => intro x _; rfl
  | succ n ih =>
    intro x hx
    show ocIter ck n (ocCycle ck x) = x
    rw [hx]
    exact ih x hx

/-- C3: within one open-rebuild of the sidebar, no two rendered entries
share a signature. -/
theorem c3_open_rebuild_unique_signatures (ck : JsStr) (st : NavState) :
    ((toggleSidebar true ck st).rendered).Pairwise
      (fun a b => a.signature ≠ b.signature) :=
  toggle_open_rendered_pairwise ck st

/-- Witness for C3 at a concrete state. -/
theorem c3_witness :
    ((toggleSidebar true [107]
      { doc := [c2NodeA, c2NodeB], convSeen := [], rendered := [],
        displayBlock := false }).rendered).Pairwise
      (fun a b => a.signature ≠ b.signature) :=
  c3_open_rebuild_unique_signatures [107]
    { doc := [c2NodeA, c2NodeB], convSeen := [], rendered := [],
      displayBlock := false }

/-- Counterexample to C4: after close-then-open, the DOM carries two
distinct signatures (both nodes were tagged), but the panel shows a
single entry — the prefix-merge absorbed `"hello world"` into `"hello"` —
so the rebuild does not yield one entry per unique signature in the DOM. -/
theorem c4_counterexample :
    ((toggleSidebar true [107] (toggleSidebar false [107] c4St0)).rendered).length = 1 ∧
    (toggleSidebar true [107] (toggleSidebar false [107] c4St0)).doc.map
      DomElem.navSig =
      [some (sigOf [104, 101, 108, 108, 111]),
       some (sigOf [104, 101, 108, 108, 111, 32, 119, 111, 114, 108, 100])] ∧
    sigOf [104, 101, 108, 108, 111] ≠
      sigOf [104, 101, 108, 108, 111, 32, 119, 111, 114, 108, 100] := by
  decide

/-- C4 as amended: closing clears the rendered list; each open is a full
rebuild rendering the near-duplicate-merged scan with at most one entry
per signature (a DOM signature absorbed by the prefix merge gets no
entry); and any number of further close-then-open repetitions reproduces
the state of the first cycle exactly — no accumulation. -/
theorem c4_toggle_rebuild_stable (ck : JsStr) (st : NavState) (n : Nat) :
    (toggleSidebar false ck st).rendered = [] ∧
    ocIter ck (n + 1) st = ocCycle ck st ∧
    ((ocCycle ck st).rendered).Pairwise
      (fun a b => a.signature ≠ b.signature) := by
  refine ⟨rfl, ?_, toggle_open_rendered_pairwise ck _⟩
  show ocIter ck n (ocCycle ck st) = ocCycle ck st
  exact ocIter_of_fix ck n (ocCycle ck st) (ocCycle_idem ck st)

/-- Witness for the amended C4 with five repetitions on a concrete page. -/
theorem c4_witness :
    (toggleSidebar false [107] c4St0).rendered = [] ∧
    ocIter [107] 5 c4St0 = ocCycle [107] c4St0 ∧
    ((ocCycle [107] c4St0).rendered).Pairwise
      (fun a b => a.signature ≠ b.signature) :=
  c4_toggle_rebuild_stable [107] c4St0 4

/-! ## Per-conversation tracking (C5, C6, C9) -/

/-- Counterexample to C5: switching (back) to conversation `"b"` does not
begin a fresh set — the retained set still holds the old signature, so
the set used for the new key is not fresh. -/
theorem c5_counterexample :
    seenSetOf (handleConvChange [98] c5St).convSeen [98] = [[120]] ∧
    ([[120]] : List JsStr) ≠ [] := by decide

/-- C5 as amended: seen signatures are tracked strictly per key (adding
under one key never adds under another); on a detected conversation
change the old key's set is retained, the new key uses its own per-key
set — created empty on first visit (and immediately populated with the
currently scanned signatures), reused with its prior contents on
revisit — and the sidebar list DOM is cleared. -/
theorem c5_per_key_tracking (reg : ConvReg) (a b x ck old : JsStr)
    (st : NavState) (hba : b ≠ a) (hold : old ≠ ck)
    (hfirst : convLookup st.convSeen ck = none) :
    seenSetOf (addSeen reg a x) b = seenSetOf reg b ∧
    seenSetOf (handleConvChange ck st).convSeen old =
      seenSetOf st.convSeen old ∧
    (∀ s, s ∈ seenSetOf (handleConvChange ck st).convSeen ck ↔
      s ∈ (scanDoc ck st.doc).1.map (fun it => it.signature)) ∧
    (handleConvChange ck st).rendered = [] := by
  refine ⟨seenSetOf_addSeen_other x hba, ?_, ?_, rfl⟩
  · show seenSetOf (initialSilentMark ck st).convSeen old = _
    unfold initialSilentMark
    exact seenSetOf_markSeenAll_other st.convSeen _ hold
  · intro s
    show s ∈ seenSetOf (initialSilentMark ck st).convSeen ck ↔ _
    unfold initialSilentMark
    rw [seenSetOf_markSeenAll_self]
    simp [seenSetOf, hfirst]

/-- Witness for the amended C5: keys `"a"` and `"b"`, a first visit to
conversation `"c"` on a one-message page. -/
theorem c5_witness :
    (seenSetOf (addSeen [([97], [])] [97] [120]) [98] =
      seenSetOf [([97], [])] [98] ∧
    seenSetOf (handleConvChange [99] c4St0).convSeen [97] =
      seenSetOf c4St0.convSeen [97] ∧
    (∀ s, s ∈ seenSetOf (handleConvChange [99] c4St0).convSeen [99] ↔
      s ∈ (scanDoc [99] c4St0.doc).1.map (fun it => it.signature)) ∧
    (handleConvChange [99] c4St0).rendered = []) :=
  c5_per_key_tracking [([97], [])] [97] [98] [120] [99] [97] c4St0
    (by decide) (by decide) (by decide)

/-- C6: with the panel hidden, mutation-driven detection updates only the
seen set — the rendered list and the display flag are untouched, and the
conversation's seen set afterwards holds exactly the old signatures plus
the signatures of the merged newly detected items. -/
theorem c6_hidden_detection_is_silent (ck : JsStr) (st : NavState)
    (h : st.displayBlock = false) :
    (appendNewMessagesForCurrentConv ck st).1.rendered = st.rendered ∧
    (appendNewMessagesForCurrentConv ck st).1.displayBlock = false ∧
    (∀ s, s ∈ seenSetOf (appendNewMessagesForCurrentConv ck st).1.convSeen ck ↔
      (s ∈ seenSetOf st.convSeen ck ∨
        s ∈ (uniqueOrdered ((scanDoc ck st.doc).1.filter
          (fun it => !((seenSetOf st.convSeen ck).contains it.signature)))).map
            (fun it => it.signature))) := by
  have hens := seenSetOf_ensure st.convSeen ck ck
  unfold appendNewMessagesForCurrentConv
  dsimp only
  simp only [h, Bool.false_eq_true, if_false]
  split
  · rename_i hni
    rw [hens] at hni
    refine ⟨rfl, rfl, ?_⟩
    intro s
    simp only [hens, hni]
    simp [uniqueOrdered, uniqueOrderedAux]
  · refine ⟨rfl, rfl, ?_⟩
    intro s
    dsimp only
    rw [seenSetOf_foldl_addSeen _ ck _ (convLookup_ensure_self_isSome _ _),
      mem_foldl_setAdd, hens]

/-- Witness for C6: a hidden panel and a page with one unseen message. -/
theorem c6_witness :
    (appendNewMessagesForCurrentConv [107] c4St0).1.rendered =
      c4St0.rendered ∧
    (appendNewMessagesForCurrentConv [107] c4St0).1.displayBlock = false ∧
    (∀ s, s ∈ seenSetOf
        (appendNewMessagesForCurrentConv [107] c4St0).1.convSeen [107] ↔
      (s ∈ seenSetOf c4St0.convSeen [107] ∨
        s ∈ (uniqueOrdered ((scanDoc [107] c4St0.doc).1.filter
          (fun it => !((seenSetOf c4St0.convSeen [107]).contains
            it.signature)))).map (fun it => it.signature))) :=
  c6_hidden_detection_is_silent [107] c4St0 (by decide)

/-- C9: seen sets only grow: `ensureConvSet` leaves a registry with the
key present unchanged, and every operation touching the registry — open
toggle, close toggle, mutation-driven append, initial silent mark,
conversation change — preserves every signature already in any
conversation's set. -/
theorem c9_seen_sets_grow (ck key s : JsStr) (s0 : List JsStr)
    (st : NavState) (h1 : convLookup st.convSeen key = some s0)
    (h2 : s ∈ s0) :
    ensureConvSet st.convSeen key = st.convSeen ∧
    s ∈ seenSetOf (toggleSidebar true ck st).convSeen key ∧
    s ∈ seenSetOf (toggleSidebar false ck st).convSeen key ∧
    s ∈ seenSetOf (appendNewMessagesForCurrentConv ck st).1.convSeen key ∧
    s ∈ seenSetOf (initialSilentMark ck st).convSeen key ∧
    s ∈ seenSetOf (handleConvChange ck st).convSeen key := by
  have hmem : s ∈ seenSetOf st.convSeen key := by
    simp [seenSetOf, h1, h2]
  have hmark : ∀ sigs, s ∈ seenSetOf (markSeenAll st.convSeen ck sigs) key :=
    fun sigs => seenSetOf_markSeenAll_mono sigs hmem
  refine ⟨ensure_of_isSome (by simp [h1]), ?_, hmem, ?_, hmark _, hmark _⟩
  · rw [toggleSidebar_true_eq]
    exact hmark _
  · unfold appendNewMessagesForCurrentConv
    dsimp only
    split
    · dsimp only
      rwa [seenSetOf_ensure]
    · dsimp only
      exact seenSetOf_foldl_addSeen_mono _ _ (by rwa [seenSetOf_ensure])

/-! ## Scanner selection and skipping (C7) -/

theorem scanNode_rawText (ck : JsStr) (node : DomElem)
    (hr : jsTrim node.innerText ≠ []) :
    ∃ it nd, scanNode ck node = (some it, nd) ∧
      it.rawText = jsTrim node.innerText := by
  rcases node with ⟨td, txt, sg, di⟩
  simp only at hr
  cases sg <;> cases di <;>
    (simp only [scanNode]; rw [if_neg hr]; exact ⟨_, _, rfl, rfl⟩)

theorem scanNode_empty (ck : JsStr) (node : DomElem)
    (hr : jsTrim node.innerText = []) : scanNode ck node = (none, node) := by
  rw [scanNode]
  rw [if_pos hr]

theorem scanDoc_rawTexts (ck : JsStr) :
    ∀ doc : List DomElem, (scanDoc ck doc).1.map MessageItem.rawText =
      ((getAllUserMessageNodes doc).map
        (fun e => jsTrim e.innerText)).filter (fun t => !(t == [])) := by
  intro doc
  induction doc with
  | nil => simp [scanDoc, getAllUserMessageNodes]
  | cons e rest ih =>
    by_cases he : (e.dataTestid == some userMessageLit) = true
    · by_cases hr : jsTrim e.innerText = []
      · have hp := scanNode_empty ck e hr
        simp only [scanDoc, he, hp, if_pos, getAllUserMessageNodes,
          List.filter_cons, List.map_cons] at ih ⊢
        simp [hr, ih]
      · obtain ⟨it, nd, hp, hraw⟩ := scanNode_rawText ck e hr
        simp only [scanDoc, he, hp, if_pos, getAllUserMessageNodes,
          List.filter_cons, List.map_cons] at ih ⊢
        simp only [List.map_cons, hraw, ih]
        rw [if_pos (by simpa using hr)]
    · simp only [scanDoc, he, if_neg, getAllUserMessageNodes,
        List.filter_cons] at ih ⊢
      simp only [Bool.false_eq_true, if_false, ih, he]

/-- C7: the scanner reads only elements carrying the designated
`data-testid="user-message"` attribute, skips elements whose trimmed text
is empty, keeps document order, and every returned item has non-empty
text — the returned raw texts are exactly the non-empty trimmed texts of
the selected nodes in order. -/
theorem c7_scanner_selection (ck : JsStr) (doc : List DomElem) :
    (∀ e ∈ getAllUserMessageNodes doc, e.dataTestid = some userMessageLit) ∧
    ((scanDoc ck doc).1.map MessageItem.rawText =
      ((getAllUserMessageNodes doc).map
        (fun e => jsTrim e.innerText)).filter (fun t => !(t == []))) ∧
    (∀ it ∈ (scanDoc ck doc).1, it.rawText ≠ []) := by
  refine ⟨?_, scanDoc_rawTexts ck doc, ?_⟩
  · intro e he
    have := (List.mem_filter.mp he).2
    simpa using this
  · intro it hit
    have hm : it.rawText ∈ (scanDoc ck doc).1.map MessageItem.rawText :=
      List.mem_map_of_mem _ hit
    rw [scanDoc_rawTexts] at hm
    have := (List.mem_filter.mp hm).2
    simpa using this

/-- Witness for C7 on a concrete document: one matching node with text,
one matching node with whitespace-only text, one non-matching node. -/
theorem c7_witness :
    (∀ e ∈ getAllUserMessageNodes c7WitnessDoc,
      e.dataTestid = some userMessageLit) ∧
    ((scanDoc [] c7WitnessDoc).1.map MessageItem.rawText =
      ((getAllUserMessageNodes c7WitnessDoc).map
        (fun e => jsTrim e.innerText)).filter (fun t => !(t == []))) ∧
    (∀ it ∈ (scanDoc [] c7WitnessDoc).1, it.rawText ≠ []) :=
  c7_scanner_selection [] c7WitnessDoc

/-! ## Readiness poll (C8) -/

theorem pollFrom_char (rootAt : Nat → Bool) :
    ∀ m n, 41 - n ≤ m → n ≤ 40 →
      ((pollFrom rootAt n = PollOutcome.gaveUp ↔
        ∀ j, n ≤ j → j ≤ 40 → rootAt j = false) ∧
       (∀ k, pollFrom rootAt n = PollOutcome.found k ↔
        (n ≤ k ∧ k ≤ 40 ∧ rootAt k = true ∧
          ∀ j, n ≤ j → j < k → rootAt j = false))) := by
  intro m
  induction m with
  | zero => intro n hm hn; omega
  | succ m ih =>
    intro n hm hn
    rw [pollFrom]
    by_cases hroot : rootAt n = true
    · rw [if_pos hroot]
      constructor
      · constructor
        · intro hcontra; cases hcontra
        · intro hall
          have := hall n (Nat.le_refl n) hn
          rw [hroot] at this
          cases this
      · intro k
        constructor
        · intro hf
          injection hf with hnk
          subst hnk
          exact ⟨Nat.le_refl n, hn, hroot, fun j hj1 hj2 => by omega⟩
        · rintro ⟨hk1, hk2, hk3, hk4⟩
          rcases Nat.eq_or_lt_of_le hk1 with rfl | hlt
          · rfl
          · have := hk4 n (Nat.le_refl n) hlt
            rw [hroot] at this
            cases this
    · rw [if_neg hroot]
      simp only [Bool.not_eq_true] at hroot
      by_cases hend : n + 1 > 40
      · rw [if_pos hend]
        have hn40 : n = 40 := by omega
        subst hn40
        constructor
        · constructor
          · intro _ j hj1 hj2
            have : j = 40 := by omega
            subst this
            exact hroot
          · intro _; rfl
        · intro k
          constructor
          · intro hcontra; cases hcontra
          · rintro ⟨hk1, hk2, hk3, -⟩
            have : k = 40 := by omega
            subst this
            rw [hroot] at hk3
            cases hk3
      · rw [if_neg hend]
        have h1 := ih (n + 1) (by omega) (by omega)
        constructor
        · rw [h1.1]
          constructor
          · intro hall j hj1 hj2
            rcases Nat.eq_or_lt_of_le hj1 with rfl | hlt
            · exact hroot
            · exact hall j hlt hj2
          · intro hall j hj1 hj2
            exact hall j (by omega) hj2
        · intro k
          rw [h1.2 k]
          constructor
          · rintro ⟨hk1, hk2, hk3, hk4⟩
            refine ⟨by omega, hk2, hk3, ?_⟩
            intro j hj1 hj2
            rcases Nat.eq_or_lt_of_le hj1 with rfl | hlt
            · exact hroot
            · exact hk4 j hlt hj2
          · rintro ⟨hk1, hk2, hk3, hk4⟩
            rcases Nat.eq_or_lt_of_le hk1 with rfl | hlt
            · rw [hroot] at hk3
              cases hk3
            · exact ⟨by omega, hk2, hk3, fun j hj1 hj2 => hk4 j (by omega) hj2⟩

/-- C8: the readiness poll (period 250 ms) terminates in every execution:
it stops with `found` exactly at the first tick, within the 41-tick
attempt budget, at which the chat root exists, stops with `gaveUp` exactly
when the root never appears within the budget, and only in the `found`
case is anything (observer, handlers, UI) installed — otherwise the
feature stays inert. -/
theorem c8_poll_terminates (rootAt : Nat → Bool) :
    pollIntervalMs = 250 ∧
    (pollOutcome rootAt = PollOutcome.gaveUp ↔
      ∀ j, j ≤ 40 → rootAt j = false) ∧
    (∀ k, pollOutcome rootAt = PollOutcome.found k ↔
      (k ≤ 40 ∧ rootAt k = true ∧ ∀ j, j < k → rootAt j = false)) ∧
    ((∃ k, pollOutcome rootAt = PollOutcome.found k) ∨
      pollOutcome rootAt = PollOutcome.gaveUp) ∧
    (setupResult rootAt = SetupResult.inert ↔
      pollOutcome rootAt = PollOutcome.gaveUp) := by
  have h := pollFrom_char rootAt 41 0 (by omega) (by omega)
  refine ⟨rfl, ?_, ?_, ?_, ?_⟩
  · rw [show pollOutcome rootAt = pollFrom rootAt 0 from rfl, h.1]
    exact ⟨fun hall j hj => hall j (Nat.zero_le j) hj,
      fun hall j _ hj => hall j hj⟩
  · intro k
    rw [show pollOutcome rootAt = pollFrom rootAt 0 from rfl, h.2 k]
    exact ⟨fun ⟨_, h2, h3, h4⟩ => ⟨h2, h3, fun j hj => h4 j (Nat.zero_le j) hj⟩,
      fun ⟨h2, h3, h4⟩ => ⟨Nat.zero_le k, h2, h3, fun j _ hj => h4 j hj⟩⟩
  · cases hp : pollOutcome rootAt with
    | found k => exact Or.inl ⟨k, rfl⟩
    | gaveUp => exact Or.inr rfl
  · cases hp : pollOutcome rootAt <;> simp [setupResult, hp]

/-- Witness for C8 at the page that never produces a chat root. -/
theorem c8_witness :
    pollIntervalMs = 250 ∧
    (pollOutcome (fun _ => false) = PollOutcome.gaveUp ↔
      ∀ j, j ≤ 40 → (fun _ => false : Nat → Bool) j = false) ∧
    (∀ k, pollOutcome (fun _ => false) = PollOutcome.found k ↔
      (k ≤ 40 ∧ (fun _ => false : Nat → Bool) k = true ∧
        ∀ j, j < k → (fun _ => false : Nat → Bool) j = false)) ∧
    ((∃ k, pollOutcome (fun _ => false) = PollOutcome.found k) ∨
      pollOutcome (fun _ => false) = PollOutcome.gaveUp) ∧
    (setupResult (fun _ => false) = SetupResult.inert ↔
      pollOutcome (fun _ => false) = PollOutcome.gaveUp) :=
  c8_poll_terminates (fun _ => false)

/-- Witness for C9: registry with conversation `"a"` holding signature
`"k"`, operations run under conversation key `"b"`. -/
theorem c9_witness :
    ensureConvSet c9WitnessSt.convSeen [97] = c9WitnessSt.convSeen ∧
    [107] ∈ seenSetOf (toggleSidebar true [98] c9WitnessSt).convSeen [97] ∧
    [107] ∈ seenSetOf (toggleSidebar false [98] c9WitnessSt).convSeen [97] ∧
    [107] ∈ seenSetOf
      (appendNewMessagesForCurrentConv [98] c9WitnessSt).1.convSeen [97] ∧
    [107] ∈ seenSetOf (initialSilentMark [98] c9WitnessSt).convSeen [97] ∧
    [107] ∈ seenSetOf (handleConvChange [98] c9WitnessSt).convSeen [97] :=
  c9_seen_sets_grow [98] [97] [107] [[107]] c9WitnessSt
    (by decide) (by decide)
